import Mathlib

/-!
Shallow embedding of the pychip8 CHIP-8 interpreter
(src/pychip8/chip8.py and src/pychip8/instructions.py).

Python lists become Lean `List`s; Python list indexing (including negative
indexes and the `IndexError` exception) is modelled by `pyIdx`/`pyGetI`/
`pySetI` (for `int` indexes, used by the stack through the stack pointer)
and `pyGetNat`/`pySetNat` (for non-negative indexes).  Fallible code returns
`Except Err`.  The random byte drawn by `random.randint(0, 255)` in `rnd`
and the pygame event consumed by `ld_kp` are passed in explicitly through
an `Env` record, since they are the only external inputs of a `tick`.
-/

set_option maxHeartbeats 1000000
set_option maxRecDepth 8000
set_option linter.unusedVariables false

namespace PyChip8

/-- Run-time failure: the only exception the interpreter's own code can
raise on its data model is Python's `IndexError` (list index out of range). -/
inductive Err where
  | indexError
deriving DecidableEq

/-- A pygame event as seen by `ld_kp`: whether it is a KEYDOWN event and
its host keycode `event.key`. -/
structure PyEvent where
  isKeyDown : Bool
  key : Nat
deriving DecidableEq

/-- External inputs consumed during one `tick`: the byte produced by
`random.randint(0, 255)` and the event returned by `pygame.event.wait()`. -/
structure Env where
  randByte : Nat
  event : PyEvent
deriving DecidableEq

/-- The machine state: the fields of `Registers` (i, pc, sp, dt, st, v),
`Memory` (ram, stack, display) and `Keyboard` (pressed_keys) from
src/pychip8/chip8.py.  `sp` is an `Int` because the Python code can drive
it to -1 (`ret` with sp == 0). -/
structure Chip8 where
  i : Nat
  pc : Nat
  sp : Int
  dt : Nat
  st : Nat
  v : List Nat
  ram : List Nat
  stack : List Nat
  display : List Nat
  pressed_keys : List Bool
deriving DecidableEq

/-- Width of the display (`Display.width`). -/
def displayWidth : Nat := 64

/-- Height of the display (`Display.height`). -/
def displayHeight : Nat := 32

/-- Python list index resolution: a non-negative index must be < len, a
negative index k addresses len + k when that is non-negative; anything
else raises IndexError (`none`). -/
def pyIdx (len : Nat) (k : Int) : Option Nat :=
  if 0 ≤ k then
    if k < (len : Int) then some k.toNat else none
  else
    if 0 ≤ k + (len : Int) then some (k + (len : Int)).toNat else none

/-- Python `l[k]` for an `int` index `k`. -/
def pyGetI (l : List Nat) (k : Int) : Except Err Nat :=
  match pyIdx l.length k with
  | some j => .ok (l.getD j 0)
  | none => .error .indexError

/-- Python `l[k] = a` for an `int` index `k`. -/
def pySetI (l : List Nat) (k : Int) (a : Nat) : Except Err (List Nat) :=
  match pyIdx l.length k with
  | some j => .ok (l.set j a)
  | none => .error .indexError

/-- Python `l[k]` for a non-negative index: the element at position k when
k < len(l), IndexError otherwise (phrased on `List.drop` so that concrete
evaluation walks only the first k cells). -/
def pyGetNat (l : List Nat) (k : Nat) : Except Err Nat :=
  match l.drop k with
  | a :: _ => .ok a
  | [] => .error .indexError

/-- Python `l[k] = a` for a non-negative index: in-place update when
k < len(l), IndexError otherwise. -/
def pySetNat (l : List Nat) (k : Nat) (a : Nat) : Except Err (List Nat) :=
  match l.drop k with
  | _ :: _ => .ok (l.set k a)
  | [] => .error .indexError

/-- Python `l[k]` on a list of booleans. -/
def pyGetBool (l : List Bool) (k : Nat) : Except Err Bool :=
  match l.drop k with
  | b :: _ => .ok b
  | [] => .error .indexError

/-- Python `l[k] = b` on a list of booleans. -/
def pySetBool (l : List Bool) (k : Nat) (b : Bool) : Except Err (List Bool) :=
  match l.drop k with
  | _ :: _ => .ok (l.set k b)
  | [] => .error .indexError

/-- Python's short-circuit `a and b` on integers: `a` if `a` is falsy
(zero), otherwise `b`. -/
def pyLand (a b : Nat) : Nat := if a = 0 then a else b

/-- Keyboard.key_mapper from src/pychip8/chip8.py: host keycode to logical
hex digit. -/
def keyMapper (key : Nat) : Option Nat :=
  if key = 49 then some 0x1
  else if key = 50 then some 0x2
  else if key = 51 then some 0x3
  else if key = 52 then some 0xC
  else if key = 113 then some 0x4
  else if key = 119 then some 0x5
  else if key = 101 then some 0x6
  else if key = 114 then some 0xD
  else if key = 97 then some 0x7
  else if key = 115 then some 0x8
  else if key = 100 then some 0x9
  else if key = 102 then some 0xE
  else if key = 122 then some 0xA
  else if key = 120 then some 0x0
  else if key = 99 then some 0xB
  else if key = 118 then some 0xF
  else none

/-- Keyboard.set_key: map the host keycode and mark the logical key pressed;
an unmapped keycode (KeyError) is caught and only reported. -/
def set_key (kb : List Bool) (key : Nat) : Except Err (List Bool) :=
  match keyMapper key with
  | some mapped => pySetBool kb mapped true
  | none => .ok kb

/-- Keyboard.is_pressed: `self.pressed_keys[key]`. -/
def is_pressed (kb : List Bool) (key : Nat) : Except Err Bool :=
  pyGetBool kb key

/-- cls: clear screen. -/
def cls (c : Chip8) : Chip8 :=
  {c with display := List.replicate (64 * 32) 0}

/-- call: stack[sp] = pc; sp += 1; pc = addr. -/
def call (c : Chip8) (addr : Nat) : Except Err Chip8 := do
  let stack ← pySetI c.stack c.sp c.pc
  .ok {c with stack := stack, sp := c.sp + 1, pc := addr}

/-- ret: sp -= 1; pc = stack[sp]. -/
def ret (c : Chip8) : Except Err Chip8 := do
  let sp := c.sp - 1
  let pc ← pyGetI c.stack sp
  .ok {c with sp := sp, pc := pc}

/-- jump: pc = addr. -/
def jump (c : Chip8) (addr : Nat) : Chip8 :=
  {c with pc := addr}

/-- branch: pc = addr + v[0]. -/
def branch (c : Chip8) (addr : Nat) : Except Err Chip8 := do
  let v0 ← pyGetNat c.v 0
  .ok {c with pc := addr + v0}

/-- se_byte: skip next instruction if v[x] == byte. -/
def se_byte (c : Chip8) (x byte : Nat) : Except Err Chip8 := do
  let vx ← pyGetNat c.v x
  .ok (if vx = byte then {c with pc := c.pc + 2} else c)

/-- sne_byte: skip next instruction if v[x] != byte. -/
def sne_byte (c : Chip8) (x byte : Nat) : Except Err Chip8 := do
  let vx ← pyGetNat c.v x
  .ok (if vx ≠ byte then {c with pc := c.pc + 2} else c)

/-- se: skip next instruction if v[x] == v[y]. -/
def se (c : Chip8) (x y : Nat) : Except Err Chip8 := do
  let vx ← pyGetNat c.v x
  let vy ← pyGetNat c.v y
  .ok (if vx = vy then {c with pc := c.pc + 2} else c)

/-- sne: skip next instruction if v[x] != v[y]. -/
def sne (c : Chip8) (x y : Nat) : Except Err Chip8 := do
  let vx ← pyGetNat c.v x
  let vy ← pyGetNat c.v y
  .ok (if vx ≠ vy then {c with pc := c.pc + 2} else c)

/-- ld_byte: v[x] = byte. -/
def ld_byte (c : Chip8) (x byte : Nat) : Except Err Chip8 := do
  let v ← pySetNat c.v x byte
  .ok {c with v := v}

/-- ldi: i = addr. -/
def ldi (c : Chip8) (addr : Nat) : Chip8 :=
  {c with i := addr}

/-- ld_sprite: i = 5 * v[x]. -/
def ld_sprite (c : Chip8) (x : Nat) : Except Err Chip8 := do
  let vx ← pyGetNat c.v x
  .ok {c with i := 5 * vx}

/-- ld: v[x] = v[y]. -/
def ld (c : Chip8) (x y : Nat) : Except Err Chip8 := do
  let vy ← pyGetNat c.v y
  let v ← pySetNat c.v x vy
  .ok {c with v := v}

/-- ld_dt: v[x] = dt. -/
def ld_dt (c : Chip8) (x : Nat) : Except Err Chip8 := do
  let v ← pySetNat c.v x c.dt
  .ok {c with v := v}

/-- set_dt: dt = v[x]. -/
def set_dt (c : Chip8) (x : Nat) : Except Err Chip8 := do
  let vx ← pyGetNat c.v x
  .ok {c with dt := vx}

/-- set_st: st = v[x]. -/
def set_st (c : Chip8) (x : Nat) : Except Err Chip8 := do
  let vx ← pyGetNat c.v x
  .ok {c with st := vx}

/-- store_bcd: ram[i], ram[i+1], ram[i+2] = hundreds, tens, ones of v[x].
The addresses are used exactly as computed, without any 12-bit mask. -/
def store_bcd (c : Chip8) (x : Nat) : Except Err Chip8 := do
  let number ← pyGetNat c.v x
  let hundreds := number / 100
  let tens := number % 100 / 10
  let ones := number % 10
  let ram ← pySetNat c.ram c.i hundreds
  let ram ← pySetNat ram (c.i + 1) tens
  let ram ← pySetNat ram (c.i + 2) ones
  .ok {c with ram := ram}

/-- store_v: for reg in 0..x: ram[i + reg] = v[reg]. -/
def store_v (c : Chip8) (x : Nat) : Except Err Chip8 := do
  let ram ← (List.range (x + 1)).foldlM
    (fun ram regIdx => do
      let vr ← pyGetNat c.v regIdx
      pySetNat ram (c.i + regIdx) vr)
    c.ram
  .ok {c with ram := ram}

/-- ld_v: for reg in 0..x: v[reg] = ram[i + reg]. -/
def ld_v (c : Chip8) (x : Nat) : Except Err Chip8 := do
  let v ← (List.range (x + 1)).foldlM
    (fun v regIdx => do
      let mr ← pyGetNat c.ram (c.i + regIdx)
      pySetNat v regIdx mr)
    c.v
  .ok {c with v := v}

/-- add_byte: v[x] += byte; v[x] &= 0xFF. -/
def add_byte (c : Chip8) (x byte : Nat) : Except Err Chip8 := do
  let vx ← pyGetNat c.v x
  let v ← pySetNat c.v x (vx + byte)
  let s ← pyGetNat v x
  let v ← pySetNat v x (s &&& 0xFF)
  .ok {c with v := v}

/-- addi: i += v[x]; i &= 0xFFF. -/
def addi (c : Chip8) (x : Nat) : Except Err Chip8 := do
  let vx ← pyGetNat c.v x
  .ok {c with i := (c.i + vx) &&& 0xFFF}

/-- or_: v[x] |= v[y]. -/
def or_ (c : Chip8) (x y : Nat) : Except Err Chip8 := do
  let vx ← pyGetNat c.v x
  let vy ← pyGetNat c.v y
  let v ← pySetNat c.v x (vx ||| vy)
  .ok {c with v := v}

/-- and_: v[x] &= v[y]. -/
def and_ (c : Chip8) (x y : Nat) : Except Err Chip8 := do
  let vx ← pyGetNat c.v x
  let vy ← pyGetNat c.v y
  let v ← pySetNat c.v x (vx &&& vy)
  .ok {c with v := v}

/-- xor_: v[x] ^= v[y]. -/
def xor_ (c : Chip8) (x y : Nat) : Except Err Chip8 := do
  let vx ← pyGetNat c.v x
  let vy ← pyGetNat c.v y
  let v ← pySetNat c.v x (vx ^^^ vy)
  .ok {c with v := v}

/-- add: v[x] += v[y]; then v[0xF] = 1 if v[x] & 0xFF > 0 else 0 (the flag
is computed from the already-stored, untruncated sum's low byte, exactly as
in the source); then v[x] &= 0xFF. -/
def add (c : Chip8) (x y : Nat) : Except Err Chip8 := do
  let vx ← pyGetNat c.v x
  let vy ← pyGetNat c.v y
  let v ← pySetNat c.v x (vx + vy)
  let s ← pyGetNat v x
  let v ← pySetNat v 0xF (if s &&& 0xFF > 0 then 1 else 0)
  let s2 ← pyGetNat v x
  let v ← pySetNat v x (s2 &&& 0xFF)
  .ok {c with v := v}

/-- sub: v[0xF] = 1 if v[x] > v[y] else 0; v[x] -= v[y]; v[x] &= 0xFF.
Python's transient negative difference followed by `& 0xFF` equals the
difference modulo 256 over the integers, folded into one masked write. -/
def sub (c : Chip8) (x y : Nat) : Except Err Chip8 := do
  let vx ← pyGetNat c.v x
  let vy ← pyGetNat c.v y
  let v ← pySetNat c.v 0xF (if vx > vy then 1 else 0)
  let vx2 ← pyGetNat v x
  let vy2 ← pyGetNat v y
  let v ← pySetNat v x (((vx2 : Int) - (vy2 : Int)).emod 256).toNat
  .ok {c with v := v}

/-- subn: v[0xF] = 1 if v[y] > v[x] else 0; v[x] = v[y] - v[x]; v[x] &= 0xFF. -/
def subn (c : Chip8) (x y : Nat) : Except Err Chip8 := do
  let vx ← pyGetNat c.v x
  let vy ← pyGetNat c.v y
  let v ← pySetNat c.v 0xF (if vy > vx then 1 else 0)
  let vx2 ← pyGetNat v x
  let vy2 ← pyGetNat v y
  let v ← pySetNat v x (((vy2 : Int) - (vx2 : Int)).emod 256).toNat
  .ok {c with v := v}

/-- shr: v[0xF] = v[x] & 1; v[x] >>= 1; v[x] &= 0xFF. -/
def shr (c : Chip8) (x y : Nat) : Except Err Chip8 := do
  let vx ← pyGetNat c.v x
  let v ← pySetNat c.v 0xF (vx &&& 0x1)
  let s ← pyGetNat v x
  let v ← pySetNat v x (s >>> 1)
  let s2 ← pyGetNat v x
  let v ← pySetNat v x (s2 &&& 0xFF)
  .ok {c with v := v}

/-- shl: v[0xF] = (v[x] & 0x80) >> 7; v[x] <<= 1; v[x] &= 0xFF. -/
def shl (c : Chip8) (x y : Nat) : Except Err Chip8 := do
  let vx ← pyGetNat c.v x
  let v ← pySetNat c.v 0xF ((vx &&& 0x80) >>> 7)
  let s ← pyGetNat v x
  let v ← pySetNat v x (s <<< 1)
  let s2 ← pyGetNat v x
  let v ← pySetNat v x (s2 &&& 0xFF)
  .ok {c with v := v}

/-- rnd: v[x] = random_number and byte — Python's logical `and`, exactly as
written in the source (not a bitwise AND). -/
def rnd (c : Chip8) (x byte randomNumber : Nat) : Except Err Chip8 := do
  let v ← pySetNat c.v x (pyLand randomNumber byte)
  .ok {c with v := v}

/-- ld_kp: wait for one pygame event; if it is a KEYDOWN event, set_key the
host keycode and store is_pressed(event.key) — the raw host keycode is used
to index pressed_keys — into v[x]; any other event ends the instruction
with no effect. -/
def ld_kp (c : Chip8) (x : Nat) (event : PyEvent) : Except Err Chip8 :=
  if event.isKeyDown then do
    let keys ← set_key c.pressed_keys event.key
    let b ← is_pressed keys event.key
    let v ← pySetNat c.v x (if b then 1 else 0)
    .ok {c with pressed_keys := keys, v := v}
  else .ok c

/-- skp: skip next instruction if key v[x] is pressed. -/
def skp (c : Chip8) (x : Nat) : Except Err Chip8 := do
  let vx ← pyGetNat c.v x
  let b ← is_pressed c.pressed_keys vx
  .ok (if b then {c with pc := c.pc + 2} else c)

/-- sknp: skip next instruction if key v[x] is not pressed. -/
def sknp (c : Chip8) (x : Nat) : Except Err Chip8 := do
  let vx ← pyGetNat c.v x
  let b ← is_pressed c.pressed_keys vx
  .ok (if b then c else {c with pc := c.pc + 2})

/-- One iteration of draw's inner `for col in range(8)` loop: plot the top
bit of `pixels` at ((xMem+col) mod width, (yMem+row) mod height) by XOR,
overwrite v[0xF] with `int(old_bit and not display[index_pos])`, then shift
`pixels` left. -/
def drawCols (xMem yMem row : Nat) :
    List Nat → Nat → List Nat → List Nat → Except Err (List Nat × List Nat)
  | [], _, display, v => .ok (display, v)
  | col :: rest, pixels, display, v => do
    let bit := (pixels &&& 0x80) >>> 7
    let xPos := (xMem + col) % displayWidth
    let yPos := (yMem + row) % displayHeight
    let indexPos := yPos * displayWidth + xPos
    let oldBit ← pyGetNat display indexPos
    let display ← pySetNat display indexPos (oldBit ^^^ bit)
    let newBit ← pyGetNat display indexPos
    let v ← pySetNat v 0xF (if oldBit ≠ 0 ∧ newBit = 0 then 1 else 0)
    drawCols xMem yMem row rest (pixels <<< 1) display v

/-- draw's outer `for row in sprite` loop: fetch the row byte at ram[i+row]
and plot its 8 bits. -/
def drawRows (i xMem yMem : Nat) (ram : List Nat) :
    List Nat → List Nat → List Nat → Except Err (List Nat × List Nat)
  | [], display, v => .ok (display, v)
  | row :: rest, display, v => do
    let pixels ← pyGetNat ram (i + row)
    let (display, v) ← drawCols xMem yMem row (List.range 8) pixels display v
    drawRows i xMem yMem ram rest display v

/-- draw: display an n-byte sprite from ram[i..] at (v[x], v[y]) by XOR,
writing the per-plot collision flag into v[0xF]. -/
def draw (c : Chip8) (x y n : Nat) : Except Err Chip8 := do
  let xMem ← pyGetNat c.v x
  let yMem ← pyGetNat c.v y
  let (display, v) ← drawRows c.i xMem yMem c.ram (List.range n) c.display c.v
  .ok {c with display := display, v := v}

/-- The 34 decoded instructions dispatched by `tick`'s match statement. -/
inductive Instr where
  | cls
  | ret
  | jump (addr : Nat)
  | call (addr : Nat)
  | se_byte (x byte : Nat)
  | sne_byte (x byte : Nat)
  | se (x y : Nat)
  | ld_byte (x byte : Nat)
  | add_byte (x byte : Nat)
  | ld (x y : Nat)
  | or_ (x y : Nat)
  | and_ (x y : Nat)
  | xor_ (x y : Nat)
  | add (x y : Nat)
  | sub (x y : Nat)
  | shr (x y : Nat)
  | subn (x y : Nat)
  | shl (x y : Nat)
  | sne (x y : Nat)
  | ldi (addr : Nat)
  | branch (addr : Nat)
  | rnd (x byte : Nat)
  | draw (x y n : Nat)
  | skp (x : Nat)
  | sknp (x : Nat)
  | ld_dt (x : Nat)
  | ld_kp (x : Nat)
  | set_dt (x : Nat)
  | set_st (x : Nat)
  | addi (x : Nat)
  | ld_sprite (x : Nat)
  | store_bcd (x : Nat)
  | store_v (x : Nat)
  | ld_v (x : Nat)
deriving DecidableEq

/-- The decode part of `tick`: the opcode field extraction and the nested
match statement of src/pychip8/chip8.py, with a case matching nothing
returned as `none` (Python's match simply falls through). -/
def decode (msb lsb : Nat) : Option Instr :=
  let opcode := (msb <<< 8) ||| lsb
  let op := opcode &&& 0xF000
  let addr := opcode &&& 0xFFF
  let n := opcode &&& 0xF
  let x := msb &&& 0xF
  let y := (lsb &&& 0xF0) >>> 4
  let byte := lsb
  if op = 0x0 then
    if byte = 0xE0 then some .cls
    else if byte = 0xEE then some .ret
    else none
  else if op = 0x1000 then some (.jump addr)
  else if op = 0x2000 then some (.call addr)
  else if op = 0x3000 then some (.se_byte x byte)
  else if op = 0x4000 then some (.sne_byte x byte)
  else if op = 0x5000 then some (.se x y)
  else if op = 0x6000 then some (.ld_byte x byte)
  else if op = 0x7000 then some (.add_byte x byte)
  else if op = 0x8000 then
    if n = 0x0 then some (.ld x y)
    else if n = 0x1 then some (.or_ x y)
    else if n = 0x2 then some (.and_ x y)
    else if n = 0x3 then some (.xor_ x y)
    else if n = 0x4 then some (.add x y)
    else if n = 0x5 then some (.sub x y)
    else if n = 0x6 then some (.shr x y)
    else if n = 0x7 then some (.subn x y)
    else if n = 0xE then some (.shl x y)
    else none
  else if op = 0x9000 then some (.sne x y)
  else if op = 0xA000 then some (.ldi addr)
  else if op = 0xB000 then some (.branch addr)
  else if op = 0xC000 then some (.rnd x byte)
  else if op = 0xD000 then some (.draw x y n)
  else if op = 0xE000 then
    if byte = 0x9E then some (.skp x)
    else if byte = 0xA1 then some (.sknp x)
    else none
  else if op = 0xF000 then
    if byte = 0x07 then some (.ld_dt x)
    else if byte = 0x0A then some (.ld_kp x)
    else if byte = 0x15 then some (.set_dt x)
    else if byte = 0x18 then some (.set_st x)
    else if byte = 0x1E then some (.addi x)
    else if byte = 0x29 then some (.ld_sprite x)
    else if byte = 0x33 then some (.store_bcd x)
    else if byte = 0x55 then some (.store_v x)
    else if byte = 0x65 then some (.ld_v x)
    else none
  else none

/-- Dispatch a decoded instruction to its operation; `rnd` receives the
random byte and `ld_kp` the pygame event from the environment. -/
def exec (c : Chip8) (env : Env) : Instr → Except Err Chip8
  | .cls => .ok (cls c)
  | .ret => ret c
  | .jump addr => .ok (jump c addr)
  | .call addr => call c addr
  | .se_byte x byte => se_byte c x byte
  | .sne_byte x byte => sne_byte c x byte
  | .se x y => se c x y
  | .ld_byte x byte => ld_byte c x byte
  | .add_byte x byte => add_byte c x byte
  | .ld x y => ld c x y
  | .or_ x y => or_ c x y
  | .and_ x y => and_ c x y
  | .xor_ x y => xor_ c x y
  | .add x y => add c x y
  | .sub x y => sub c x y
  | .shr x y => shr c x y
  | .subn x y => subn c x y
  | .shl x y => shl c x y
  | .sne x y => sne c x y
  | .ldi addr => .ok (ldi c addr)
  | .branch addr => branch c addr
  | .rnd x byte => rnd c x byte env.randByte
  | .draw x y n => draw c x y n
  | .skp x => skp c x
  | .sknp x => sknp c x
  | .ld_dt x => ld_dt c x
  | .ld_kp x => ld_kp c x env.event
  | .set_dt x => set_dt c x
  | .set_st x => set_st c x
  | .addi x => addi c x
  | .ld_sprite x => ld_sprite c x
  | .store_bcd x => store_bcd c x
  | .store_v x => store_v c x
  | .ld_v x => ld_v c x

/-- get_opcode: read the two bytes at pc, advance pc by 2 and return them. -/
def get_opcode (c : Chip8) : Except Err (Nat × Nat × Chip8) := do
  let msb ← pyGetNat c.ram c.pc
  let lsb ← pyGetNat c.ram (c.pc + 1)
  .ok (msb, lsb, {c with pc := c.pc + 2})

/-- tick: one fetch-decode-execute cycle; an opcode matching no decode case
falls through the match and leaves the (pc-advanced) state unchanged. -/
def tick (c : Chip8) (env : Env) : Except Err Chip8 := do
  let (msb, lsb, c') ← get_opcode c
  match decode msb lsb with
  | some instr => exec c' env instr
  | none => .ok c'

/-- The built-in hexadecimal glyph sprites installed by Memory.__post_init__. -/
def hexadecimalSprites : List Nat :=
  [0xF0, 0x90, 0x90, 0x90, 0xF0,
   0x20, 0x60, 0x20, 0x20, 0x70,
   0xF0, 0x10, 0xF0, 0x80, 0xF0,
   0xF0, 0x10, 0xF0, 0x10, 0xF0,
   0x90, 0x90, 0xF0, 0x10, 0x10,
   0xF0, 0x80, 0xF0, 0x10, 0xF0,
   0xF0, 0x80, 0xF0, 0x90, 0xF0,
   0xF0, 0x10, 0x20, 0x40, 0x40,
   0xF0, 0x90, 0xF0, 0x90, 0xF0,
   0xF0, 0x90, 0xF0, 0x10, 0xF0,
   0xF0, 0x90, 0xF0, 0x90, 0x90,
   0xE0, 0x90, 0xE0, 0x90, 0xE0,
   0xF0, 0x80, 0x80, 0x80, 0xF0,
   0xE0, 0x90, 0x90, 0x90, 0xE0,
   0xF0, 0x80, 0xF0, 0x80, 0xF0,
   0xF0, 0x80, 0xF0, 0x80, 0x80]

/-- The 4096-byte RAM after Memory.__post_init__: zero-filled with the 80
glyph bytes written at the start. -/
def initRam : List Nat :=
  hexadecimalSprites ++ List.replicate (4096 - 80) 0

/-- The freshly initialized machine: registers zeroed, pc = 0x200, sp = 0,
ram holding only the glyph table, empty stack, cleared display, no key
pressed. -/
def initChip8 : Chip8 :=
  { i := 0, pc := 0x200, sp := 0, dt := 0, st := 0,
    v := List.replicate 16 0,
    ram := initRam,
    stack := List.replicate 16 0,
    display := List.replicate (64 * 32) 0,
    pressed_keys := List.replicate 16 false }

/-- Well-formedness of a machine state: the container sizes of the data
model, byte-sized ram cells, and a non-negative stack pointer. -/
def Wf (c : Chip8) : Prop :=
  c.v.length = 16 ∧ c.ram.length = 4096 ∧ c.stack.length = 16 ∧
  c.display.length = 2048 ∧ c.pressed_keys.length = 16 ∧
  (∀ b ∈ c.ram, b < 256) ∧ 0 ≤ c.sp

instance (c : Chip8) : Decidable (Wf c) := by
  unfold Wf
  infer_instance

/-- Register read used to state results: v[j] of a machine state. -/
def vReg (c : Chip8) (j : Nat) : Nat := c.v.getD j 0

@[simp] theorem displayWidth_eq : displayWidth = 64 := rfl

@[simp] theorem displayHeight_eq : displayHeight = 32 := rfl

theorem ok_bind {α β : Type} (a : α) (f : α → Except Err β) :
    (Except.ok a >>= f) = f a := rfl

theorem pyGetNat_ok (l : List Nat) (k : Nat) (h : k < l.length) :
    pyGetNat l k = .ok (l.getD k 0) := by
  unfold pyGetNat
  rw [List.drop_eq_getElem_cons h, List.getD_eq_getElem?_getD, List.getElem?_eq_getElem h]
  rfl

theorem pySetNat_ok (l : List Nat) (k a : Nat) (h : k < l.length) :
    pySetNat l k a = .ok (l.set k a) := by
  unfold pySetNat
  rw [List.drop_eq_getElem_cons h]

theorem pySetNat_err (l : List Nat) (k a : Nat) (h : l.length ≤ k) :
    pySetNat l k a = .error .indexError := by
  unfold pySetNat
  rw [List.drop_eq_nil_of_le h]

theorem pyGetNat_err (l : List Nat) (k : Nat) (h : l.length ≤ k) :
    pyGetNat l k = .error .indexError := by
  unfold pyGetNat
  rw [List.drop_eq_nil_of_le h]

theorem pyGetNat_mem (l : List Nat) (k a : Nat) (h : pyGetNat l k = .ok a) : a ∈ l := by
  by_cases hk : k < l.length
  · rw [pyGetNat_ok l k hk, List.getD_eq_getElem?_getD, List.getElem?_eq_getElem hk] at h
    injection h with h
    subst h
    exact List.getElem_mem hk
  · rw [pyGetNat_err l k (le_of_not_lt hk)] at h
    cases h

theorem pyGetI_ok (l : List Nat) (k : Int) (h0 : 0 ≤ k) (h : k < (l.length : Int)) :
    pyGetI l k = .ok (l.getD k.toNat 0) := by
  simp [pyGetI, pyIdx, h0, h]

theorem pySetI_ok (l : List Nat) (k : Int) (a : Nat) (h0 : 0 ≤ k) (h : k < (l.length : Int)) :
    pySetI l k a = .ok (l.set k.toNat a) := by
  simp [pySetI, pyIdx, h0, h]

theorem getD_set_self {α : Type} (l : List α) (i : Nat) (x d : α) (h : i < l.length) :
    (l.set i x).getD i d = x := by
  simp [List.getD_eq_getElem?_getD, List.getElem?_set_eq_of_lt x h]

theorem getD_set_ne {α : Type} (l : List α) (i j : Nat) (x d : α) (h : i ≠ j) :
    (l.set i x).getD j d = l.getD j d := by
  simp [List.getD_eq_getElem?_getD, List.getElem?_set_ne h]

theorem set_getD_self {α : Type} (l : List α) (i : Nat) (d : α) (h : i < l.length) :
    l.set i (l.getD i d) = l := by
  apply List.ext_getElem?
  intro j
  by_cases hij : i = j
  · subst hij
    rw [List.getElem?_set_eq_of_lt _ h, List.getD_eq_getElem?_getD,
      List.getElem?_eq_getElem h]
    rfl
  · rw [List.getElem?_set_ne hij]

/-- One XOR plot on the frame buffer: toggle the bit `pb.2` at index `pb.1`. -/
def toggleStep (d : List Nat) (pb : Nat × Nat) : List Nat :=
  d.set pb.1 (d.getD pb.1 0 ^^^ pb.2)

/-- A sequence of XOR plots applied left to right. -/
def toggleList (d : List Nat) (L : List (Nat × Nat)) : List Nat :=
  L.foldl toggleStep d

theorem toggleStep_length (d : List Nat) (a : Nat × Nat) :
    (toggleStep d a).length = d.length :=
  List.length_set ..

theorem toggleList_length (L : List (Nat × Nat)) :
    ∀ d : List Nat, (toggleList d L).length = d.length := by
  induction L with
  | nil => intro d; rfl
  | cons a L ih =>
    intro d
    show (toggleList (toggleStep d a) L).length = d.length
    rw [ih, toggleStep_length]

theorem toggleStep_oob (d : List Nat) (p z : Nat) (hp : d.length ≤ p) :
    toggleStep d (p, z) = d :=
  List.set_eq_of_length_le hp

theorem toggleStep_comm (d : List Nat) (a b : Nat × Nat) :
    toggleStep (toggleStep d a) b = toggleStep (toggleStep d b) a := by
  obtain ⟨p, u⟩ := a
  obtain ⟨q, w⟩ := b
  by_cases hpq : p = q
  · subst hpq
    by_cases hp : p < d.length
    · simp only [toggleStep]
      rw [getD_set_self _ _ _ _ hp, getD_set_self _ _ _ _ hp, List.set_set, List.set_set,
        Nat.xor_assoc, Nat.xor_comm u w, ← Nat.xor_assoc]
    · rw [toggleStep_oob d p u (le_of_not_lt hp), toggleStep_oob d p w (le_of_not_lt hp),
        toggleStep_oob d p u (le_of_not_lt hp)]
  · simp only [toggleStep]
    rw [getD_set_ne _ _ _ _ _ hpq, getD_set_ne _ _ _ _ _ (Ne.symm hpq)]
    exact List.set_comm _ _ _ hpq

theorem toggleStep_invol (d : List Nat) (a : Nat × Nat) :
    toggleStep (toggleStep d a) a = d := by
  obtain ⟨p, u⟩ := a
  by_cases hp : p < d.length
  · simp only [toggleStep]
    rw [getD_set_self _ _ _ _ hp, List.set_set, Nat.xor_assoc, Nat.xor_self, Nat.xor_zero,
      set_getD_self _ _ _ hp]
  · rw [toggleStep_oob d p u (le_of_not_lt hp), toggleStep_oob d p u (le_of_not_lt hp)]

theorem toggleList_toggleStep_comm (L : List (Nat × Nat)) :
    ∀ (d : List Nat) (a : Nat × Nat),
      toggleList (toggleStep d a) L = toggleStep (toggleList d L) a := by
  induction L with
  | nil => intro d a; rfl
  | cons b L ih =>
    intro d a
    show toggleList (toggleStep (toggleStep d a) b) L
        = toggleStep (toggleList (toggleStep d b) L) a
    rw [toggleStep_comm d a b, ih]

theorem toggleList_invol (L : List (Nat × Nat)) :
    ∀ d : List Nat, toggleList (toggleList d L) L = d := by
  induction L with
  | nil => intro d; rfl
  | cons a L ih =>
    intro d
    show toggleList (toggleStep (toggleList (toggleStep d a) L) a) L = d
    rw [toggleList_toggleStep_comm L d a, toggleStep_invol]
    exact ih d

theorem toggleList_append (d : List Nat) (A B : List (Nat × Nat)) :
    toggleList d (A ++ B) = toggleList (toggleList d A) B :=
  List.foldl_append ..

/-- The frame-buffer index targeted by one plot of `drawCols`. -/
def plotIdx (xMem yMem row col : Nat) : Nat :=
  ((yMem + row) % displayHeight) * displayWidth + (xMem + col) % displayWidth

/-- The collision-flag value one plot of `drawCols` writes into v[0xF]. -/
def plotFlag (display : List Nat) (idx bit : Nat) : Nat :=
  if display.getD idx 0 ≠ 0 ∧ (display.set idx (display.getD idx 0 ^^^ bit)).getD idx 0 = 0
  then 1 else 0

/-- The (index, bit) plot sequence produced by one row of `drawCols`. -/
def colPlots (xMem yMem row : Nat) : List Nat → Nat → List (Nat × Nat)
  | [], _ => []
  | col :: rest, pixels =>
    (plotIdx xMem yMem row col, (pixels &&& 0x80) >>> 7)
      :: colPlots xMem yMem row rest (pixels <<< 1)

/-- The (index, bit) plot sequence produced by `drawRows`. -/
def rowPlots (i xMem yMem : Nat) (ram : List Nat) : List Nat → List (Nat × Nat)
  | [] => []
  | row :: rest =>
    colPlots xMem yMem row (List.range 8) (ram.getD (i + row) 0)
      ++ rowPlots i xMem yMem ram rest

theorem plotIdx_lt (xMem yMem row col : Nat) : plotIdx xMem yMem row col < 2048 := by
  have h1 : (yMem + row) % displayHeight < 32 := Nat.mod_lt _ (by norm_num [displayHeight])
  have h2 : (xMem + col) % displayWidth < 64 := Nat.mod_lt _ (by norm_num [displayWidth])
  simp only [plotIdx, displayWidth_eq, displayHeight_eq] at h1 h2 ⊢
  omega

theorem drawCols_cons (xMem yMem row col : Nat) (rest : List Nat) (pixels : Nat)
    (display v : List Nat) (hlt : plotIdx xMem yMem row col < display.length)
    (hv : 15 < v.length) :
    drawCols xMem yMem row (col :: rest) pixels display v
      = drawCols xMem yMem row rest (pixels <<< 1)
          (display.set (plotIdx xMem yMem row col)
            (display.getD (plotIdx xMem yMem row col) 0 ^^^ ((pixels &&& 0x80) >>> 7)))
          (v.set 15
            (plotFlag display (plotIdx xMem yMem row col) ((pixels &&& 0x80) >>> 7))) := by
  simp only [plotIdx] at hlt
  simp only [drawCols, plotIdx, plotFlag]
  rw [pyGetNat_ok _ _ hlt, ok_bind, pySetNat_ok _ _ _ hlt, ok_bind,
    pyGetNat_ok _ _ (by rw [List.length_set]; exact hlt), ok_bind,
    pySetNat_ok _ _ _ hv, ok_bind]

theorem drawCols_spec (xMem yMem row : Nat) :
    ∀ (cols : List Nat) (pixels : Nat) (display v : List Nat),
      display.length = 2048 → v.length = 16 →
      ∃ v', drawCols xMem yMem row cols pixels display v
          = .ok (toggleList display (colPlots xMem yMem row cols pixels), v')
        ∧ v'.length = 16 ∧ ∀ j, j ≠ 15 → v'.getD j 0 = v.getD j 0 := by
  intro cols
  induction cols with
  | nil =>
    intro pixels display v hd hv
    exact ⟨v, rfl, hv, fun j _ => rfl⟩
  | cons col rest ih =>
    intro pixels display v hd hv
    have hlt : plotIdx xMem yMem row col < display.length := by
      rw [hd]; exact plotIdx_lt ..
    rw [drawCols_cons xMem yMem row col rest pixels display v hlt (by omega)]
    obtain ⟨v', heq, hlen, hpres⟩ := ih (pixels <<< 1)
      (display.set (plotIdx xMem yMem row col)
        (display.getD (plotIdx xMem yMem row col) 0 ^^^ ((pixels &&& 0x80) >>> 7)))
      (v.set 15 (plotFlag display (plotIdx xMem yMem row col) ((pixels &&& 0x80) >>> 7)))
      (by rw [List.length_set]; exact hd)
      (by rw [List.length_set]; exact hv)
    refine ⟨v', ?_, hlen, ?_⟩
    · exact heq
    · intro j hj
      rw [hpres j hj, getD_set_ne _ _ _ _ _ (by omega)]

theorem drawRows_spec (i xMem yMem : Nat) (ram : List Nat) :
    ∀ (rows : List Nat) (display v : List Nat),
      display.length = 2048 → v.length = 16 →
      (∀ r ∈ rows, i + r < ram.length) →
      ∃ v', drawRows i xMem yMem ram rows display v
          = .ok (toggleList display (rowPlots i xMem yMem ram rows), v')
        ∧ v'.length = 16 ∧ ∀ j, j ≠ 15 → v'.getD j 0 = v.getD j 0 := by
  intro rows
  induction rows with
  | nil =>
    intro display v hd hv _
    exact ⟨v, rfl, hv, fun j _ => rfl⟩
  | cons row rest ih =>
    intro display v hd hv hmem
    obtain ⟨hrow, hrest⟩ := List.forall_mem_cons.mp hmem
    obtain ⟨v1, heq1, hlen1, hpres1⟩ :=
      drawCols_spec xMem yMem row (List.range 8) (ram.getD (i + row) 0) display v hd hv
    obtain ⟨v2, heq2, hlen2, hpres2⟩ := ih
      (toggleList display (colPlots xMem yMem row (List.range 8) (ram.getD (i + row) 0)))
      v1 (by rw [toggleList_length]; exact hd) hlen1 hrest
    have hstep : drawRows i xMem yMem ram (row :: rest) display v
        = drawRows i xMem yMem ram rest
            (toggleList display (colPlots xMem yMem row (List.range 8) (ram.getD (i + row) 0)))
            v1 := by
      simp only [drawRows]
      rw [pyGetNat_ok _ _ hrow, ok_bind, heq1, ok_bind]
    refine ⟨v2, ?_, hlen2, ?_⟩
    · rw [hstep, heq2]
      show _ = Except.ok (toggleList display
        (colPlots xMem yMem row (List.range 8) (ram.getD (i + row) 0)
          ++ rowPlots i xMem yMem ram rest), v2)
      rw [toggleList_append]
    · intro j hj
      rw [hpres2 j hj, hpres1 j hj]

theorem draw_spec (c : Chip8) (x y n : Nat) (hwf : Wf c) (hx : x < 16) (hy : y < 16)
    (hin : c.i + n ≤ 4096) :
    ∃ v', draw c x y n
        = .ok {c with
            display := toggleList c.display
              (rowPlots c.i (c.v.getD x 0) (c.v.getD y 0) c.ram (List.range n)),
            v := v'}
      ∧ v'.length = 16 ∧ ∀ j, j ≠ 15 → v'.getD j 0 = c.v.getD j 0 := by
  obtain ⟨hv, hram, -, hdisp, -, -, -⟩ := hwf
  obtain ⟨v', heq, hlen, hpres⟩ :=
    drawRows_spec c.i (c.v.getD x 0) (c.v.getD y 0) c.ram (List.range n) c.display c.v
      hdisp hv
      (by
        intro r hr
        rw [hram]
        have := List.mem_range.mp hr
        omega)
  refine ⟨v', ?_, hlen, hpres⟩
  rw [draw, pyGetNat_ok _ _ (by omega), ok_bind, pyGetNat_ok _ _ (by omega), ok_bind,
    heq, ok_bind]

theorem hexSprites_bytes : ∀ b ∈ hexadecimalSprites, b < 256 := by
  decide

theorem initRam_length : initRam.length = 4096 := by
  rw [initRam, List.length_append, List.length_replicate]
  rfl

theorem initRam_bytes : ∀ b ∈ initRam, b < 256 := by
  intro b hb
  rw [initRam] at hb
  rcases List.mem_append.mp hb with h | h
  · exact hexSprites_bytes b h
  · rw [List.eq_of_mem_replicate h]
    norm_num

theorem initRam_getD_zero (k : Nat) (h1 : 80 ≤ k) (h2 : k < 4096) :
    initRam.getD k 0 = 0 := by
  rw [List.getD_eq_getElem?_getD, initRam,
    List.getElem?_append_right (by rw [show hexadecimalSprites.length = 80 from rfl]; omega),
    List.getElem?_replicate]
  rw [show hexadecimalSprites.length = 80 from rfl]
  rw [if_pos (by omega)]
  rfl

theorem set_bytes (l : List Nat) (k a : Nat) (h : ∀ b ∈ l, b < 256) (ha : a < 256) :
    ∀ b ∈ l.set k a, b < 256 := by
  intro b hb
  rcases List.mem_or_eq_of_mem_set hb with h' | h'
  · exact h b h'
  · omega

theorem displayInit_length : (List.replicate (64 * 32) 0 : List Nat).length = 2048 := by
  rw [List.length_replicate]

theorem wf_initChip8 : Wf initChip8 :=
  ⟨rfl, initRam_length, rfl, displayInit_length, rfl, initRam_bytes, le_refl 0⟩

/-- C9: for a well-formed state with x, y < 16 distinct from 0xF, sprite
height 1 ≤ n ≤ 15 and the sprite bytes within RAM, a first DRAW leaves RAM
and register I unchanged, and executing DRAW Vx,Vy,n twice in succession
returns every frame-buffer pixel to its pre-draw value (XOR plotting is
self-inverse). -/
theorem draw_double_identity (c : Chip8) (x y n : Nat) (hwf : Wf c)
    (hx : x < 16) (hy : y < 16) (hx15 : x ≠ 15) (hy15 : y ≠ 15)
    (hn1 : 1 ≤ n) (hn15 : n ≤ 15) (hin : c.i + n ≤ 4096) :
    ((draw c x y n).toOption.map fun c1 => (c1.ram, c1.i)) = some (c.ram, c.i)
    ∧ ((draw c x y n >>= fun c1 => draw c1 x y n).toOption.map fun c2 => c2.display)
        = some c.display := by
  obtain ⟨v1, heq1, hlen1, hpres1⟩ := draw_spec c x y n hwf hx hy hin
  obtain ⟨hv, hram, hst, hdisp, hkeys, hbytes, hsp⟩ := hwf
  have hwf1 : Wf {c with
      display := toggleList c.display
        (rowPlots c.i (c.v.getD x 0) (c.v.getD y 0) c.ram (List.range n)),
      v := v1} := by
    refine ⟨hlen1, hram, hst, ?_, hkeys, hbytes, hsp⟩
    show (toggleList c.display _).length = 2048
    rw [toggleList_length]
    exact hdisp
  obtain ⟨v2, heq2, hlen2, hpres2⟩ := draw_spec _ x y n hwf1 hx hy hin
  constructor
  · rw [heq1]
    rfl
  · rw [heq1, ok_bind, heq2]
    show some (toggleList
        (toggleList c.display
          (rowPlots c.i (c.v.getD x 0) (c.v.getD y 0) c.ram (List.range n)))
        (rowPlots c.i (v1.getD x 0) (v1.getD y 0) c.ram (List.range n)))
      = some c.display
    rw [hpres1 x hx15, hpres1 y hy15, toggleList_invol]

/-- C9 witness: the double-draw identity instantiated on the freshly
initialized machine, drawing the 5-byte glyph for digit 0 at (0, 0). -/
theorem draw_double_identity_witness :
    ((draw initChip8 0 1 5).toOption.map fun c1 => (c1.ram, c1.i))
        = some (initChip8.ram, initChip8.i)
    ∧ ((draw initChip8 0 1 5 >>= fun c1 => draw c1 0 1 5).toOption.map fun c2 => c2.display)
        = some initChip8.display :=
  draw_double_identity initChip8 0 1 5 wf_initChip8 (by decide) (by decide) (by decide)
    (by decide) (by decide) (by decide) (by decide)

/-- Input state for the ADD Vx,Vy flag test: V0 = 0xFF, V1 = 0x01. -/
def addBugIn : Chip8 :=
  {initChip8 with v := ((List.replicate 16 0).set 0 0xFF).set 1 0x01}

/-- Input state for the ADD Vx,Vy flag test: V0 = 0x01, V1 = 0x01. -/
def addBugIn2 : Chip8 :=
  {initChip8 with v := ((List.replicate 16 0).set 0 0x01).set 1 0x01}

/-- C1: code bug — the source computes the carry flag from the low byte of
the already-stored sum (`v[x] & 0xFF > 0`), so ADD V0,V1 with V0=0xFF,
V1=0x01 yields V0=0x00 but VF=0 (the claim and the function's own
docstring demand VF=1), while V0=0x01, V1=0x01 yields VF=1 (the claim
demands VF=0). -/
theorem add_carry_flag_code_bug :
    ((add addBugIn 0 1).toOption.map fun c => (vReg c 0, vReg c 15)) = some (0x00, 0)
    ∧ ((add addBugIn2 0 1).toOption.map fun c => (vReg c 0, vReg c 15)) = some (0x02, 1) := by
  decide

/-- C2: code bug — the source combines the random byte and the mask with
Python's logical `and`, so with random byte 0x03 and mask 0x05 the result
stored in V0 is the mask 0x05 itself, while the claimed bitwise AND of
0x03 and 0x05 is 0x01. -/
theorem rnd_logical_and_code_bug :
    ((rnd initChip8 0 0x05 0x03).toOption.map fun c => vReg c 0) = some 0x05
    ∧ (0x03 &&& 0x05) = 0x01 := by
  decide

/-- Input state for the DRAW collision test: sprite byte 0x80 at I = 0x300,
pixel (0, 0) set, V0 = 0. -/
def drawBugIn : Chip8 :=
  {initChip8 with
    i := 0x300,
    ram := initRam.set 0x300 0x80,
    display := (List.replicate 2048 0).set 0 1}

/-- Input state for the DRAW collision test: sprite byte 0x80 at I = 0x300,
empty display. -/
def drawBugIn2 : Chip8 :=
  {initChip8 with i := 0x300, ram := initRam.set 0x300 0x80}

/-- C3: code bug — v[0xF] is overwritten on every one of the 8·n plots, so
the final flag reflects only the last plot: drawing sprite 0x80 over a set
pixel (0,0) erases that pixel (display[0] goes 1 to 0) yet leaves VF = 0,
and drawing the same sprite twice on an empty display (the first draw sets
the pixel) also leaves the second draw's VF = 0, where the claim demands 1
in both cases. -/
theorem draw_collision_flag_code_bug :
    drawBugIn.display.getD 0 0 = 1
    ∧ ((draw drawBugIn 0 0 1).toOption.map fun c => (vReg c 15, c.display.getD 0 0))
        = some (0, 0)
    ∧ ((draw drawBugIn2 0 0 1 >>= fun c1 => draw c1 0 0 1).toOption.map fun c => vReg c 15)
        = some 0 := by
  decide

/-- C10: for a well-formed state and x < 16, RND stores `pyLand r kk`
into Vx: 0 when the random byte r is 0 and the mask kk itself otherwise,
so the result is always 0 or kk. -/
theorem rnd_result_zero_or_mask (c : Chip8) (x kk r : Nat) (hwf : Wf c) (hx : x < 16) :
    ((rnd c x kk r).toOption.map fun c' => vReg c' x) = some (if r = 0 then 0 else kk)
    ∧ ∀ c', rnd c x kk r = .ok c' → (vReg c' x = 0 ∨ vReg c' x = kk) := by
  obtain ⟨hv, -, -, -, -, -, -⟩ := hwf
  have heq : rnd c x kk r = .ok {c with v := c.v.set x (pyLand r kk)} := by
    rw [rnd, pySetNat_ok _ _ _ (by omega), ok_bind]
  constructor
  · rw [heq]
    show some ((c.v.set x (pyLand r kk)).getD x 0) = some (if r = 0 then 0 else kk)
    rw [getD_set_self _ _ _ _ (by omega)]
    by_cases hr : r = 0 <;> simp [pyLand, hr]
  · intro c' hc'
    rw [heq] at hc'
    injection hc' with h
    subst h
    show (c.v.set x (pyLand r kk)).getD x 0 = 0 ∨ (c.v.set x (pyLand r kk)).getD x 0 = kk
    rw [getD_set_self _ _ _ _ (by omega)]
    by_cases hr : r = 0
    · left; simp [pyLand, hr]
    · right; simp [pyLand, hr]

/-- C10 witness: RND V3 with mask 0xAB and random byte 7 on the fresh
machine stores 0xAB. -/
theorem rnd_result_zero_or_mask_witness :
    ((rnd initChip8 3 0xAB 7).toOption.map fun c' => vReg c' 3)
        = some (if 7 = 0 then 0 else 0xAB)
    ∧ ∀ c', rnd initChip8 3 0xAB 7 = .ok c' → (vReg c' 3 = 0 ∨ vReg c' 3 = 0xAB) :=
  rnd_result_zero_or_mask initChip8 3 0xAB 7 wf_initChip8 (by decide)

/-- An environment delivering random byte 0 and a non-keyboard event; the
instructions exercised alongside it ignore both. -/
def envNone : Env := { randByte := 0, event := { isKeyDown := false, key := 0 } }

/-- k nested CALL instructions executed in sequence. -/
def callSeq (c : Chip8) : List Nat → Except Err Chip8
  | [] => .ok c
  | a :: rest => do
    let c' ← call c a
    callSeq c' rest

theorem callSeq_sp (addrs : List Nat) :
    ∀ c : Chip8, c.stack.length = 16 → 0 ≤ c.sp → c.sp + addrs.length ≤ 16 →
      ((callSeq c addrs).toOption.map fun c' => c'.sp) = some (c.sp + addrs.length) := by
  induction addrs with
  | nil =>
    intro c hst h0 hle
    show some c.sp = some (c.sp + ((0 : Nat) : Int))
    norm_num
  | cons a rest ih =>
    intro c hst h0 hle
    have hlen : ((a :: rest).length : Int) = (rest.length : Int) + 1 := by
      rw [List.length_cons]
      push_cast
      ring
    have hcall : call c a
        = .ok {c with stack := c.stack.set c.sp.toNat c.pc, sp := c.sp + 1, pc := a} := by
      rw [call, pySetI_ok _ _ _ h0 (by rw [hst]; rw [hlen] at hle; omega), ok_bind]
    rw [callSeq, hcall, ok_bind]
    have h2 := ih {c with stack := c.stack.set c.sp.toNat c.pc, sp := c.sp + 1, pc := a}
      (by show (c.stack.set c.sp.toNat c.pc).length = 16; rw [List.length_set]; exact hst)
      (by show (0 : Int) ≤ c.sp + 1; omega)
      (by show c.sp + 1 + (rest.length : Int) ≤ 16; rw [hlen] at hle; omega)
    rw [h2, hlen]
    show some (c.sp + 1 + (rest.length : Int)) = some (c.sp + ((rest.length : Int) + 1))
    congr 1
    ring

/-- Input state for the RET-underflow test: fresh machine (SP = 0) whose
last stack slot holds 0x345. -/
def retUnderflowIn : Chip8 :=
  {initChip8 with stack := (List.replicate 16 0).set 15 0x345}

/-- C4 counterexample: executing RET with SP == 0 does not fail with a
StackUnderflow error — it succeeds, setting SP to -1 and loading PC from
stack slot 15 through Python's negative indexing. -/
theorem ret_underflow_no_error_cex :
    ((ret retUnderflowIn).toOption.map fun c => (c.sp, c.pc)) = some (-1, 0x345) := by
  rfl

theorem wf_sp16 : Wf {initChip8 with sp := 16} :=
  ⟨rfl, initRam_length, rfl, displayInit_length, rfl, initRam_bytes, by norm_num⟩

/-- Witness input for the RET-underflow clause: fresh machine with
stack slot 15 holding 0x222. -/
def retUnderflowIn2 : Chip8 :=
  {initChip8 with stack := (List.replicate 16 0).set 15 0x222}

theorem wf_retUnderflowIn2 : Wf retUnderflowIn2 :=
  ⟨rfl, initRam_length, by decide, displayInit_length, rfl, initRam_bytes, by decide⟩

/-- C4 (amended): after k nested CALLs from SP = 0, SP equals k for every
0 ≤ k ≤ 16; a CALL executed when SP == 16 fails with an index error (the
16-slot stack has no slot 16), not a named StackOverflow; and a RET
executed when SP == 0 does not fail: it sets SP to -1 and loads PC from
stack slot 15 via negative indexing. -/
theorem stack_discipline_amended :
    (∀ (c : Chip8) (addrs : List Nat), Wf c → c.sp = 0 → addrs.length ≤ 16 →
      ((callSeq c addrs).toOption.map fun c' => c'.sp) = some (addrs.length : Int))
    ∧ (∀ (c : Chip8) (a : Nat), Wf c → c.sp = 16 → call c a = .error .indexError)
    ∧ (∀ c : Chip8, Wf c → c.sp = 0 →
        ((ret c).toOption.map fun c' => (c'.sp, c'.pc)) = some (-1, c.stack.getD 15 0)) := by
  refine ⟨?_, ?_, ?_⟩
  · intro c addrs hwf h0 hlen
    obtain ⟨-, -, hst, -, -, -, -⟩ := hwf
    have h2 := callSeq_sp addrs c hst (by omega) (by rw [h0]; omega)
    rw [h2, h0, zero_add]
  · intro c a hwf h16
    obtain ⟨-, -, hst, -, -, -, -⟩ := hwf
    have herr : pySetI c.stack c.sp c.pc = .error .indexError := by
      unfold pySetI
      rw [hst, h16]
      rfl
    rw [call, herr]
    rfl
  · intro c hwf h0
    obtain ⟨-, -, hst, -, -, -, -⟩ := hwf
    have hget : pyGetI c.stack (c.sp - 1) = .ok (c.stack.getD 15 0) := by
      unfold pyGetI
      rw [hst, h0]
      rfl
    simp only [ret, hget, ok_bind]
    rw [h0]
    rfl

/-- C4 witness: 16 nested CALLs from the fresh machine end with SP = 16,
a CALL with SP = 16 fails with an index error, and a RET with SP = 0
succeeds with SP = -1 and PC taken from stack slot 15. -/
theorem stack_discipline_amended_witness :
    (((callSeq initChip8 (List.replicate 16 0x300)).toOption.map fun c' => c'.sp)
        = some ((List.replicate 16 0x300).length : Int))
    ∧ call {initChip8 with sp := 16} 0x300 = .error .indexError
    ∧ ((ret retUnderflowIn2).toOption.map fun c' => (c'.sp, c'.pc))
        = some (-1, retUnderflowIn2.stack.getD 15 0) :=
  ⟨stack_discipline_amended.1 initChip8 (List.replicate 16 0x300) wf_initChip8 rfl (by decide),
   stack_discipline_amended.2.1 {initChip8 with sp := 16} 0x300 wf_sp16 rfl,
   stack_discipline_amended.2.2 retUnderflowIn2 wf_retUnderflowIn2 rfl⟩

/-- A KEYDOWN pygame event for host keycode 49 (the '1' key, which
key_mapper sends to logical digit 0x1). -/
def ev49 : PyEvent := { isKeyDown := true, key := 49 }

/-- C5: code bug — on a KEYDOWN event the source calls
`is_pressed(event.key)` with the raw host keycode, so for keycode 49
(logical digit 0x1) it indexes the 16-entry pressed_keys list at 49 and
raises IndexError instead of storing the digit 0x1 in Vx. -/
theorem ld_kp_key_digit_code_bug :
    ld_kp initChip8 0 ev49 = .error .indexError ∧ keyMapper 49 = some 0x1 :=
  ⟨rfl, rfl⟩

/-- C6 counterexample: on the fresh machine the fetched word at 0x200 is
0x0000, which matches no decode case; the tick returns successfully with
only PC advanced by 2 — no error is signalled. -/
theorem unknown_opcode_silent_cex :
    tick initChip8 envNone = .ok {initChip8 with pc := 0x202} := by
  rfl

/-- C6 (amended): a fetched instruction word matching no decode case is
silently ignored: the fetch-decode-execute step returns successfully with
PC advanced by 2 and all other state unchanged, rather than signalling an
UnknownOpcode condition. -/
theorem unknown_opcode_amended (c : Chip8) (env : Env) (msb lsb : Nat)
    (h1 : pyGetNat c.ram c.pc = .ok msb)
    (h2 : pyGetNat c.ram (c.pc + 1) = .ok lsb)
    (h3 : decode msb lsb = none) :
    tick c env = .ok {c with pc := c.pc + 2} := by
  simp only [tick, get_opcode, h1, h2, h3, ok_bind]

/-- Input state for the unknown-opcode witness: fresh machine whose word at
0x200 is 0xE000 (an E-family low byte that is neither 0x9E nor 0xA1). -/
def unknownOpIn : Chip8 := {initChip8 with ram := initRam.set 0x200 0xE0}

/-- C6 witness: the amended claim instantiated on the 0xE000 opcode. -/
theorem unknown_opcode_amended_witness :
    tick unknownOpIn envNone = .ok {unknownOpIn with pc := unknownOpIn.pc + 2} :=
  unknown_opcode_amended unknownOpIn envNone 0xE0 0x00 (by rfl) (by rfl) (by rfl)

/-- Input state for the BCD address test: fresh machine with I = 0xFFF
(reachable by executing LDI 0xFFF). -/
def bcdOverrunIn : Chip8 := {initChip8 with i := 0xFFF}

/-- C7 counterexample: the BCD store with I = 0xFFF is not masked to 12
bits — after writing RAM cell 0xFFF it attempts RAM index 0x1000 and fails
with an index error. -/
theorem bcd_address_unmasked_cex :
    store_bcd bcdOverrunIn 0 = .error .indexError := by
  simp only [store_bcd, show bcdOverrunIn.i = 0xFFF from rfl,
    show pyGetNat bcdOverrunIn.v 0 = .ok 0 from rfl, ok_bind]
  rw [pySetNat_ok _ _ _
      (by rw [show bcdOverrunIn.ram = initRam from rfl, initRam_length]; norm_num),
    ok_bind,
    pySetNat_err _ _ _
      (by rw [List.length_set, show bcdOverrunIn.ram = initRam from rfl, initRam_length])]
  rfl

/-- C7 (amended): only ADD I,Vx masks its address to 12 bits (so its result
always stays below 4096); the BCD store and the fetch after BRANCH use
unmasked addresses and fail with an index error when they reach past
0xFFF. -/
theorem address_masking_amended :
    (∀ (c : Chip8) (x : Nat), Wf c → x < 16 →
      ((addi c x).toOption.map fun c' => c'.i) = some ((c.i + c.v.getD x 0) &&& 0xFFF)
      ∧ (c.i + c.v.getD x 0) &&& 0xFFF < 4096)
    ∧ (∀ (c : Chip8) (x : Nat), Wf c → x < 16 → c.i = 0xFFF →
        store_bcd c x = .error .indexError)
    ∧ (∀ (c : Chip8) (addr : Nat), Wf c → 4096 ≤ addr + c.v.getD 0 0 →
        (branch c addr >>= get_opcode) = .error .indexError) := by
  refine ⟨?_, ?_, ?_⟩
  · intro c x hwf hx
    obtain ⟨hv, -, -, -, -, -, -⟩ := hwf
    constructor
    · rw [addi, pyGetNat_ok _ _ (by omega), ok_bind]
      rfl
    · exact lt_of_le_of_lt Nat.and_le_right (by norm_num)
  · intro c x hwf hx hi
    obtain ⟨hv, hram, -, -, -, -, -⟩ := hwf
    simp only [store_bcd, hi]
    rw [pyGetNat_ok _ _ (by omega), ok_bind,
      pySetNat_ok _ _ _ (by omega), ok_bind,
      pySetNat_err _ _ _ (by rw [List.length_set]; omega)]
    rfl
  · intro c addr hwf hbig
    obtain ⟨hv, hram, -, -, -, -, -⟩ := hwf
    have hb : branch c addr = .ok {c with pc := addr + c.v.getD 0 0} := by
      rw [branch, pyGetNat_ok _ _ (by omega), ok_bind]
    rw [hb, ok_bind]
    simp only [get_opcode]
    rw [pyGetNat_err _ _ (by omega)]
    rfl

/-- Input state for the BRANCH overrun witness: fresh machine with V0 = 1,
so that BRANCH 0xFFF sets PC = 0x1000. -/
def branchOverrunIn : Chip8 := {initChip8 with v := (List.replicate 16 0).set 0 1}

theorem wf_bcdOverrunIn : Wf bcdOverrunIn :=
  ⟨rfl, initRam_length, rfl, displayInit_length, rfl, initRam_bytes, by decide⟩

theorem wf_branchOverrunIn : Wf branchOverrunIn :=
  ⟨by decide, initRam_length, rfl, displayInit_length, rfl, initRam_bytes, by decide⟩

/-- C7 witness: ADD I,V0 on the fresh machine masks I and stays below 4096;
the BCD store with I = 0xFFF fails; and after BRANCH 0xFFF with V0 = 1 the
next fetch fails. -/
theorem address_masking_amended_witness :
    (((addi initChip8 0).toOption.map fun c' => c'.i)
        = some ((initChip8.i + initChip8.v.getD 0 0) &&& 0xFFF)
      ∧ (initChip8.i + initChip8.v.getD 0 0) &&& 0xFFF < 4096)
    ∧ store_bcd bcdOverrunIn 0 = .error .indexError
    ∧ (branch branchOverrunIn 0xFFF >>= get_opcode) = .error .indexError :=
  ⟨address_masking_amended.1 initChip8 0 wf_initChip8 (by norm_num),
   address_masking_amended.2.1 bcdOverrunIn 0 wf_bcdOverrunIn (by norm_num) rfl,
   address_masking_amended.2.2 branchOverrunIn 0xFFF wf_branchOverrunIn (by decide)⟩

theorem callDecodeAux : ∀ msb : Nat, msb < 256 → msb / 16 = 2 → ∀ lsb : Nat, lsb < 256 →
    decode msb lsb = some (.call ((msb % 16) * 256 + lsb)) := by
  decide

theorem retDecode : decode 0x00 0xEE = some .ret := rfl

/-- C8: from any well-formed state with SP ≤ 15 whose word at PC is a CALL
(high nibble 2) and whose target nnn holds the RET opcode 0x00EE,
executing a tick (the CALL) and then another tick (the RET) leaves PC at
the address immediately following the CALL (PC + 2) and restores SP to its
pre-CALL value. -/
theorem call_ret_roundtrip (c : Chip8) (env : Env) (msb lsb : Nat)
    (hwf : Wf c) (hsp : c.sp ≤ 15)
    (h1 : pyGetNat c.ram c.pc = .ok msb)
    (h2 : pyGetNat c.ram (c.pc + 1) = .ok lsb)
    (hmsb : msb / 16 = 2)
    (h3 : pyGetNat c.ram ((msb % 16) * 256 + lsb) = .ok 0x00)
    (h4 : pyGetNat c.ram ((msb % 16) * 256 + lsb + 1) = .ok 0xEE) :
    ((tick c env >>= fun c1 => tick c1 env).toOption.map fun c2 => (c2.pc, c2.sp))
      = some (c.pc + 2, c.sp) := by
  obtain ⟨hv, hram, hst, hdisp, hkeys, hbytes, hsp0⟩ := hwf
  have hm256 : msb < 256 := hbytes msb (pyGetNat_mem _ _ _ h1)
  have hl256 : lsb < 256 := hbytes lsb (pyGetNat_mem _ _ _ h2)
  have hdec := callDecodeAux msb hm256 hmsb lsb hl256
  have hspN : c.sp.toNat < c.stack.length := by
    rw [hst]
    omega
  have hcall : call {c with pc := c.pc + 2} ((msb % 16) * 256 + lsb)
      = .ok {c with
          pc := (msb % 16) * 256 + lsb,
          sp := c.sp + 1,
          stack := c.stack.set c.sp.toNat (c.pc + 2)} := by
    rw [call, pySetI_ok _ _ _ hsp0 (by rw [hst]; omega), ok_bind]
  have ht1 : tick c env
      = .ok {c with
          pc := (msb % 16) * 256 + lsb,
          sp := c.sp + 1,
          stack := c.stack.set c.sp.toNat (c.pc + 2)} := by
    simp only [tick, get_opcode, h1, h2, ok_bind, hdec]
    exact hcall
  have hget : pyGetI (c.stack.set c.sp.toNat (c.pc + 2)) (c.sp + 1 - 1) = .ok (c.pc + 2) := by
    have hcancel : c.sp + 1 - 1 = c.sp := by ring
    rw [hcancel,
      pyGetI_ok _ _ hsp0 (by rw [List.length_set, hst]; omega),
      getD_set_self _ _ _ _ hspN]
  have ht2 : tick {c with
      pc := (msb % 16) * 256 + lsb,
      sp := c.sp + 1,
      stack := c.stack.set c.sp.toNat (c.pc + 2)} env
      = .ok {c with
          pc := c.pc + 2,
          sp := c.sp + 1 - 1,
          stack := c.stack.set c.sp.toNat (c.pc + 2)} := by
    simp only [tick, get_opcode, h3, h4, ok_bind, retDecode]
    simp only [exec, ret, hget, ok_bind]
  rw [ht1, ok_bind, ht2]
  show some (c.pc + 2, c.sp + 1 - 1) = some (c.pc + 2, c.sp)
  congr 1
  ring_nf

/-- Input state for the CALL/RET witness: fresh machine whose word at
0x200 is 0x2300 (CALL 0x300) and whose word at 0x300 is 0x00EE (RET). -/
def callRetIn : Chip8 :=
  {initChip8 with ram := (initRam.set 0x200 0x23).set 0x301 0xEE}

theorem wf_callRetIn : Wf callRetIn :=
  ⟨rfl,
   by
     show ((initRam.set 0x200 0x23).set 0x301 0xEE).length = 4096
     rw [List.length_set, List.length_set, initRam_length],
   rfl, displayInit_length, rfl,
   set_bytes _ _ _ (set_bytes _ _ _ initRam_bytes (by norm_num)) (by norm_num),
   by decide⟩

/-- C8 witness: the CALL/RET round trip on the fresh machine with
CALL 0x300 at 0x200 and RET at 0x300. -/
theorem call_ret_roundtrip_witness :
    ((tick callRetIn envNone >>= fun c1 => tick c1 envNone).toOption.map
        fun c2 => (c2.pc, c2.sp)) = some (callRetIn.pc + 2, callRetIn.sp) :=
  call_ret_roundtrip callRetIn envNone 0x23 0x00 wf_callRetIn (by decide)
    (by rfl) (by rfl) (by rfl) (by rfl) (by rfl)

end PyChip8
